import Mathlib

/-!
Shallow embedding of `src/train-generator/main.py` (the Trajectory Engine,
`get_train_movement`, together with the data model it operates on).

Numeric values (`Minutes`, `Kilometers`, `KMPH`) are embedded as exact
rationals; the Python source uses floating point, but every claim below is
about the real-number arithmetic the source expresses.

Error behaviour is embedded with `Except`: the Python function raises
`KeyError` when a station identifier is absent from the network dictionary
(`network[...]`) and `ZeroDivisionError` when the travel-time division
`journey_distance / velocity` is evaluated with `velocity = 0`.  No other
exception can arise in `get_train_movement`, and the source defines no
`InvalidVelocityError` or `UnknownStationError` class.
-/

deriving instance DecidableEq for Except

namespace TrainGen

abbrev StationName := String

abbrev Minutes := ℚ

abbrev Kilometers := ℚ

abbrev KMPH := ℚ

/-- `Network = Dict[StationName, Kilometers]`, embedded as an association
list; the spec's invariant is that identifiers are unique, under which
first-match lookup agrees with Python dict lookup. -/
abbrev Network := List (StationName × Kilometers)

/-- `network[s]` on a Python dict: the value when the key is present. -/
def lookupStation (network : Network) (s : StationName) : Option Kilometers :=
  match network with
  | [] => none
  | kv :: rest => if kv.1 = s then some kv.2 else lookupStation rest s

structure Stop where
  name : StationName
  dwell_time : Minutes
deriving Repr, DecidableEq

abbrev Route := List Stop

structure Timetable where
  stops : Route
  departure_station : StationName
  departure_time : Minutes
deriving Repr, DecidableEq

structure Position where
  time : Minutes
  location : Kilometers
deriving Repr, DecidableEq

abbrev TrainMovement := List Position

/-- The exceptions `get_train_movement` can raise: `KeyError` from a dict
access `network[station]` with an absent key, and `ZeroDivisionError` from
`journey_distance / velocity` with `velocity == 0`. -/
inductive TrainError where
  | keyError (station : StationName)
  | zeroDivisionError
deriving Repr, DecidableEq

/-- The body of the `for i in range(0, len(timetable.stops))` loop of
`get_train_movement`, with the accumulator pair
(`current_time`, `current_location`) passed explicitly.  Each iteration
looks up `destination_location` (raising `KeyError` if the name is absent),
computes `journey_distance = abs(destination_location - current_location)`
and `arrival_time = current_time + (journey_distance / velocity) * 60.0`
(the division raising `ZeroDivisionError` when `velocity = 0`), appends the
arrival sample, then adds the dwell and appends the post-dwell sample; the
source's intermediate names are inlined here. -/
def movement_loop (velocity : KMPH) (network : Network) :
    Route → Minutes → Kilometers → Except TrainError TrainMovement
  | [], _, _ => Except.ok []
  | stop :: rest, current_time, current_location =>
    match lookupStation network stop.name with
    | none => Except.error (TrainError.keyError stop.name)
    | some destination_location =>
      if velocity = 0 then Except.error TrainError.zeroDivisionError
      else
        match movement_loop velocity network rest
            (current_time + |destination_location - current_location| / velocity * 60
              + stop.dwell_time) destination_location with
        | Except.error e => Except.error e
        | Except.ok tail =>
          Except.ok (Position.mk
              (current_time + |destination_location - current_location| / velocity * 60)
              destination_location ::
            Position.mk
              (current_time + |destination_location - current_location| / velocity * 60
                + stop.dwell_time)
              destination_location :: tail)

/-- `get_train_movement(timetable, velocity, network)`: resolve the
departure station, emit the initial sample, then run the per-stop loop. -/
def get_train_movement (timetable : Timetable) (velocity : KMPH)
    (network : Network) : Except TrainError TrainMovement :=
  match lookupStation network timetable.departure_station with
  | none => Except.error (TrainError.keyError timetable.departure_station)
  | some current_location =>
    match movement_loop velocity network timetable.stops
        timetable.departure_time current_location with
    | Except.error e => Except.error e
    | Except.ok rest =>
      Except.ok (Position.mk timetable.departure_time current_location :: rest)

/-- All dwell times on a route are non-negative. -/
def dwellsNonneg (r : Route) : Prop := ∀ s ∈ r, 0 ≤ s.dwell_time

/-- Sample times are non-decreasing across the whole movement. -/
def nondecreasingTimes (m : TrainMovement) : Prop :=
  m.Pairwise (fun a b => a.time ≤ b.time)

/-- Every sample's location is the network coordinate of the departure
station or of some stop on the route. -/
def locationsFromNetwork (tt : Timetable) (net : Network)
    (m : TrainMovement) : Prop :=
  ∀ p ∈ m, lookupStation net tt.departure_station = some p.location ∨
    ∃ s ∈ tt.stops, lookupStation net s.name = some p.location

/-- The concrete scenario from the spec's testable properties. -/
abbrev exNetwork : Network := [("A", 0), ("B", 5), ("C", 10)]

abbrev exTimetable : Timetable :=
  Timetable.mk [Stop.mk "B" 2, Stop.mk "C" 0] "A" 0

abbrev exMovement : TrainMovement :=
  [Position.mk 0 0, Position.mk 5 5, Position.mk 7 5,
   Position.mk 12 10, Position.mk 12 10]

/-! Helper lemmas about the engine. -/

/-- Inversion of a successful run of `get_train_movement`: the departure
station resolved, the loop succeeded, and the movement is the initial
sample followed by the loop's samples. -/
theorem get_train_movement_ok {tt : Timetable} {v : KMPH} {net : Network}
    {m : TrainMovement} (h : get_train_movement tt v net = Except.ok m) :
    ∃ c l, lookupStation net tt.departure_station = some c ∧
      movement_loop v net tt.stops tt.departure_time c = Except.ok l ∧
      m = Position.mk tt.departure_time c :: l := by
  rw [get_train_movement] at h
  split at h
  · exact absurd h (by simp)
  next c hc =>
    split at h
    · exact absurd h (by simp)
    next l hl =>
      simp only [Except.ok.injEq] at h
      exact ⟨c, l, hc, hl, h.symm⟩

/-- Inversion of a successful loop iteration on a non-empty route. -/
theorem movement_loop_cons_ok {v : KMPH} {net : Network} {stop : Stop}
    {rest : Route} {t : Minutes} {loc : Kilometers} {l : TrainMovement}
    (h : movement_loop v net (stop :: rest) t loc = Except.ok l) :
    ∃ c tail, lookupStation net stop.name = some c ∧ v ≠ 0 ∧
      movement_loop v net rest (t + |c - loc| / v * 60 + stop.dwell_time) c
        = Except.ok tail ∧
      l = Position.mk (t + |c - loc| / v * 60) c ::
          Position.mk (t + |c - loc| / v * 60 + stop.dwell_time) c :: tail := by
  rw [movement_loop] at h
  split at h
  · exact absurd h (by simp)
  next c hc =>
    split at h
    · exact absurd h (by simp)
    next hv =>
      split at h
      · exact absurd h (by simp)
      next tail hr =>
        simp only [Except.ok.injEq] at h
        exact ⟨c, tail, hc, hv, hr, h.symm⟩

/-- A successful loop run over `stops` produces exactly `2 * stops.length`
samples. -/
theorem movement_loop_length {v : KMPH} {net : Network} :
    ∀ {stops : Route} {t : Minutes} {loc : Kilometers} {l : TrainMovement},
      movement_loop v net stops t loc = Except.ok l →
      l.length = 2 * stops.length
  | [], _, _, _, h => by
    rw [movement_loop] at h
    simp only [Except.ok.injEq] at h
    simp [← h]
  | stop :: rest, t, loc, l, h => by
    obtain ⟨c, tail, _, _, hr, rfl⟩ := movement_loop_cons_ok h
    have := movement_loop_length hr
    simp [this]
    ring

/-- Per-leg structure of a successful loop run: writing `prev` for the
sample that immediately precedes the loop's output, the samples at indices
`2k`, `2k+1`, `2k+2` of `prev :: l` are the k-th leg's previous sample,
arrival sample and post-dwell sample, with the arrival time obtained from
the previous sample by the travel-time formula. -/
theorem movement_loop_leg {v : KMPH} {net : Network} {stops : Route} :
    ∀ {prev : Position} {l : TrainMovement},
      movement_loop v net stops prev.time prev.location = Except.ok l →
      ∀ {k : ℕ} {s : Stop}, stops[k]? = some s →
      ∃ c p, lookupStation net s.name = some c ∧
        (prev :: l)[2*k]? = some p ∧
        (prev :: l)[2*k+1]? =
          some (Position.mk (p.time + |c - p.location| / v * 60) c) ∧
        (prev :: l)[2*k+2]? =
          some (Position.mk (p.time + |c - p.location| / v * 60 + s.dwell_time) c) := by
  induction stops with
  | nil =>
    intro prev l h k s hs
    simp at hs
  | cons st rest ih =>
    intro prev l h k s hs
    obtain ⟨c, tail, hc, hv, hr, rfl⟩ := movement_loop_cons_ok h
    cases k with
    | zero =>
      simp only [List.getElem?_cons_zero, Option.some.injEq] at hs
      subst hs
      refine ⟨c, prev, hc, ?_, ?_, ?_⟩ <;> simp
    | succ k =>
      have hs' : rest[k]? = some s := by simpa using hs
      have h' : movement_loop v net rest
          (Position.mk (prev.time + |c - prev.location| / v * 60 + st.dwell_time) c).time
          (Position.mk (prev.time + |c - prev.location| / v * 60 + st.dwell_time) c).location
          = Except.ok tail := hr
      obtain ⟨c', p, hc', h0, h1, h2⟩ := ih h' hs'
      have e0 : 2*(k+1) = 2*k + 1 + 1 := by ring
      have e1 : 2*(k+1)+1 = 2*k + 1 + 1 + 1 := by ring
      have e2 : 2*(k+1)+2 = 2*k + 2 + 1 + 1 := by ring
      refine ⟨c', p, hc', ?_, ?_, ?_⟩
      · rw [e0, List.getElem?_cons_succ, List.getElem?_cons_succ]
        exact h0
      · rw [e1, List.getElem?_cons_succ, List.getElem?_cons_succ]
        exact h1
      · rw [e2, List.getElem?_cons_succ, List.getElem?_cons_succ]
        exact h2

/-- With positive velocity and non-negative dwells, a successful loop run
extends a chain of non-decreasing times starting from the preceding
sample. -/
theorem movement_loop_chain {v : KMPH} {net : Network} (hv : 0 < v) :
    ∀ {stops : Route} {t : Minutes} {loc : Kilometers} {l : TrainMovement},
      dwellsNonneg stops →
      movement_loop v net stops t loc = Except.ok l →
      List.Chain (fun a b : Position => a.time ≤ b.time) (Position.mk t loc) l := by
  intro stops
  induction stops with
  | nil =>
    intro t loc l _ h
    rw [movement_loop] at h
    simp only [Except.ok.injEq] at h
    rw [← h]
    exact List.Chain.nil
  | cons st rest ih =>
    intro t loc l hd h
    obtain ⟨c, tail, hc, hv0, hr, rfl⟩ := movement_loop_cons_ok h
    have hdist : 0 ≤ |c - loc| / v * 60 :=
      mul_nonneg (div_nonneg (abs_nonneg _) hv.le) (by norm_num)
    have hdw : 0 ≤ st.dwell_time := hd st (by simp)
    refine List.Chain.cons ?_ (List.Chain.cons ?_ ?_)
    · show t ≤ t + |c - loc| / v * 60
      exact le_add_of_nonneg_right hdist
    · show t + |c - loc| / v * 60 ≤ t + |c - loc| / v * 60 + st.dwell_time
      exact le_add_of_nonneg_right hdw
    · exact ih (fun s hs => hd s (by simp [hs])) hr

/-- If the velocity is non-zero and some stop on the route is absent from
the network, the loop fails with a `KeyError`. -/
theorem movement_loop_absent {v : KMPH} {net : Network} (hv : v ≠ 0) :
    ∀ {stops : Route} (t : Minutes) (loc : Kilometers),
      (∃ s ∈ stops, lookupStation net s.name = none) →
      ∃ st, movement_loop v net stops t loc =
        Except.error (TrainError.keyError st) := by
  intro stops
  induction stops with
  | nil =>
    intro t loc h
    simp at h
  | cons st rest ih =>
    intro t loc h
    cases hc : lookupStation net st.name with
    | none =>
      exact ⟨st.name, by simp [movement_loop, hc]⟩
    | some c =>
      obtain ⟨s, hs, hnone⟩ := h
      rcases List.mem_cons.mp hs with rfl | hs'
      · rw [hc] at hnone
        exact absurd hnone (by simp)
      · obtain ⟨st', herr⟩ :=
          ih (t + |c - loc| / v * 60 + st.dwell_time) c ⟨s, hs', hnone⟩
        exact ⟨st', by simp [movement_loop, hc, hv, herr]⟩

/-- If some stop on the route is absent from the network, the loop fails
with some error (with velocity 0 the division error may come first). -/
theorem movement_loop_absent_any {v : KMPH} {net : Network} :
    ∀ {stops : Route} (t : Minutes) (loc : Kilometers),
      (∃ s ∈ stops, lookupStation net s.name = none) →
      ∃ e, movement_loop v net stops t loc = Except.error e := by
  intro stops
  induction stops with
  | nil =>
    intro t loc h
    simp at h
  | cons st rest ih =>
    intro t loc h
    cases hc : lookupStation net st.name with
    | none =>
      exact ⟨TrainError.keyError st.name, by simp [movement_loop, hc]⟩
    | some c =>
      by_cases hv : v = 0
      · exact ⟨TrainError.zeroDivisionError, by simp [movement_loop, hc, hv]⟩
      · obtain ⟨s, hs, hnone⟩ := h
        rcases List.mem_cons.mp hs with rfl | hs'
        · rw [hc] at hnone
          exact absurd hnone (by simp)
        · obtain ⟨e, herr⟩ :=
            ih (t + |c - loc| / v * 60 + st.dwell_time) c ⟨s, hs', hnone⟩
          exact ⟨e, by simp [movement_loop, hc, hv, herr]⟩

/-- Every location in a successful loop run is the network coordinate of
some stop on the route. -/
theorem movement_loop_locations {v : KMPH} {net : Network} :
    ∀ {stops : Route} {t : Minutes} {loc : Kilometers} {l : TrainMovement},
      movement_loop v net stops t loc = Except.ok l →
      ∀ p ∈ l, ∃ s ∈ stops, lookupStation net s.name = some p.location := by
  intro stops
  induction stops with
  | nil =>
    intro t loc l h p hp
    rw [movement_loop] at h
    simp only [Except.ok.injEq] at h
    rw [← h] at hp
    simp at hp
  | cons st rest ih =>
    intro t loc l h p hp
    obtain ⟨c, tail, hc, _, hr, rfl⟩ := movement_loop_cons_ok h
    simp only [List.mem_cons] at hp
    rcases hp with rfl | rfl | hp
    · exact ⟨st, by simp, hc⟩
    · exact ⟨st, by simp, hc⟩
    · obtain ⟨s, hs, hloc⟩ := ih hr p hp
      exact ⟨s, by simp [hs], hloc⟩

end TrainGen

namespace TrainGen

/-- Helper: the spec's concrete scenario evaluated. -/
theorem exMovement_ok :
    get_train_movement exTimetable 60 exNetwork = Except.ok exMovement := by
  simp [get_train_movement, movement_loop, lookupStation]
  norm_num

/-- C8: On the network `{A:0, B:5, C:10}` with velocity 60 km/h, route
`[Stop(B, dwell=2), Stop(C, dwell=0)]` and departure `(A, time=0)`,
`get_train_movement` returns exactly the five samples
`(0,0), (5,5), (7,5), (12,10), (12,10)`. -/
theorem C8_concrete_scenario :
    get_train_movement exTimetable 60 exNetwork = Except.ok exMovement :=
  exMovement_ok

/-- C1: If the departure station is present in the network and
`get_train_movement` returns a trajectory, that trajectory is non-empty and
its first sample is the departure time paired with the network's coordinate
for the departure station. -/
theorem C1_first_sample (tt : Timetable) (v : KMPH) (net : Network)
    (c : Kilometers) (m : TrainMovement)
    (hc : lookupStation net tt.departure_station = some c)
    (hok : get_train_movement tt v net = Except.ok m) :
    m ≠ [] ∧ m.head? = some (Position.mk tt.departure_time c) := by
  obtain ⟨c0, l, hc0, _, rfl⟩ := get_train_movement_ok hok
  rw [hc0] at hc
  simp only [Option.some.injEq] at hc
  subst hc
  exact ⟨by simp, rfl⟩

/-- C1 witness: the theorem instantiated on the spec's concrete scenario. -/
theorem C1_first_sample_witness :
    lookupStation exNetwork "A" = some 0 ∧
    get_train_movement exTimetable 60 exNetwork = Except.ok exMovement ∧
    (exMovement ≠ [] ∧ exMovement.head? = some (Position.mk 0 0)) :=
  ⟨rfl, exMovement_ok,
    C1_first_sample exTimetable 60 exNetwork 0 exMovement rfl exMovement_ok⟩

/-- C2: A trajectory returned by `get_train_movement` for a route of length
`R` contains exactly `1 + 2 * R` samples; in particular an empty route gives
a single-sample trajectory. -/
theorem C2_sample_count (tt : Timetable) (v : KMPH) (net : Network)
    (m : TrainMovement) (hok : get_train_movement tt v net = Except.ok m) :
    m.length = 1 + 2 * tt.stops.length := by
  obtain ⟨c, l, _, hl, rfl⟩ := get_train_movement_ok hok
  simp [movement_loop_length hl]
  ring

/-- C2 witness: the theorem instantiated on the spec's concrete scenario. -/
theorem C2_sample_count_witness :
    get_train_movement exTimetable 60 exNetwork = Except.ok exMovement ∧
    exMovement.length = 1 + 2 * exTimetable.stops.length :=
  ⟨exMovement_ok, C2_sample_count exTimetable 60 exNetwork exMovement exMovement_ok⟩

/-- C3: For the k-th leg of a successful run, the arrival sample (at index
`2k+1`) has the destination station's coordinate as location, and its time
is the previous sample's time plus `|destination − current| / velocity * 60`;
the absolute value makes the formula direction-agnostic. -/
theorem C3_arrival_sample (tt : Timetable) (v : KMPH) (net : Network)
    (m : TrainMovement) (k : ℕ) (s : Stop)
    (hok : get_train_movement tt v net = Except.ok m)
    (hs : tt.stops[k]? = some s) :
    ∃ c p, lookupStation net s.name = some c ∧
      m[2*k]? = some p ∧
      m[2*k+1]? = some (Position.mk (p.time + |c - p.location| / v * 60) c) := by
  obtain ⟨c0, l, hc0, hl, rfl⟩ := get_train_movement_ok hok
  have h' : movement_loop v net tt.stops
      (Position.mk tt.departure_time c0).time
      (Position.mk tt.departure_time c0).location = Except.ok l := hl
  obtain ⟨c, p, hc, h0, h1, _⟩ := movement_loop_leg h' hs
  exact ⟨c, p, hc, h0, h1⟩

/-- C3 witness: the first leg of the spec's concrete scenario. -/
theorem C3_arrival_sample_witness :
    get_train_movement exTimetable 60 exNetwork = Except.ok exMovement ∧
    exTimetable.stops[0]? = some (Stop.mk "B" 2) ∧
    (∃ c p, lookupStation exNetwork (Stop.mk "B" 2).name = some c ∧
      exMovement[2*0]? = some p ∧
      exMovement[2*0+1]? = some (Position.mk (p.time + |c - p.location| / 60 * 60) c)) :=
  ⟨exMovement_ok, rfl,
    C3_arrival_sample exTimetable 60 exNetwork exMovement 0 (Stop.mk "B" 2)
      exMovement_ok rfl⟩

/-- C7: For every processed stop, the post-dwell sample (at index `2k+2`)
has the same location as the immediately preceding arrival sample and a
time later by exactly the stop's dwell duration; when the dwell is 0 the
two samples are identical, and the pair is emitted even at the final stop
since k ranges over the whole route. -/
theorem C7_post_dwell_sample (tt : Timetable) (v : KMPH) (net : Network)
    (m : TrainMovement) (k : ℕ) (s : Stop)
    (hok : get_train_movement tt v net = Except.ok m)
    (hs : tt.stops[k]? = some s) :
    ∃ arr post, m[2*k+1]? = some arr ∧ m[2*k+2]? = some post ∧
      post.location = arr.location ∧ post.time = arr.time + s.dwell_time ∧
      (s.dwell_time = 0 → post = arr) := by
  obtain ⟨c0, l, hc0, hl, rfl⟩ := get_train_movement_ok hok
  have h' : movement_loop v net tt.stops
      (Position.mk tt.departure_time c0).time
      (Position.mk tt.departure_time c0).location = Except.ok l := hl
  obtain ⟨c, p, _, _, h1, h2⟩ := movement_loop_leg h' hs
  refine ⟨_, _, h1, h2, rfl, rfl, ?_⟩
  intro hd
  rw [hd]
  simp

/-- C7 witness: the final stop of the spec's concrete scenario, which has
dwell 0, so the arrival and post-dwell samples coincide. -/
theorem C7_post_dwell_sample_witness :
    get_train_movement exTimetable 60 exNetwork = Except.ok exMovement ∧
    exTimetable.stops[1]? = some (Stop.mk "C" 0) ∧
    (∃ arr post, exMovement[2*1+1]? = some arr ∧ exMovement[2*1+2]? = some post ∧
      post.location = arr.location ∧ post.time = arr.time + (Stop.mk "C" 0).dwell_time ∧
      ((Stop.mk "C" 0).dwell_time = 0 → post = arr)) :=
  ⟨exMovement_ok, rfl,
    C7_post_dwell_sample exTimetable 60 exNetwork exMovement 1 (Stop.mk "C" 0)
      exMovement_ok rfl⟩

/-- C4: With strictly positive velocity and non-negative dwell times, the
sample times of a trajectory returned by `get_train_movement` are
monotonically non-decreasing across the whole sequence. -/
theorem C4_times_monotone (tt : Timetable) (v : KMPH) (net : Network)
    (m : TrainMovement) (hv : 0 < v) (hd : dwellsNonneg tt.stops)
    (hok : get_train_movement tt v net = Except.ok m) :
    nondecreasingTimes m := by
  obtain ⟨c0, l, _, hl, rfl⟩ := get_train_movement_ok hok
  have hchain := movement_loop_chain hv hd hl
  haveI : IsTrans Position (fun a b : Position => a.time ≤ b.time) :=
    ⟨fun _ _ _ h1 h2 => le_trans h1 h2⟩
  exact List.chain'_iff_pairwise.mp hchain

/-- C4 witness: the theorem instantiated on the spec's concrete scenario. -/
theorem C4_times_monotone_witness :
    (0:ℚ) < 60 ∧ dwellsNonneg exTimetable.stops ∧
    get_train_movement exTimetable 60 exNetwork = Except.ok exMovement ∧
    nondecreasingTimes exMovement :=
  ⟨by norm_num, by norm_num [dwellsNonneg], exMovement_ok,
    C4_times_monotone exTimetable 60 exNetwork exMovement (by norm_num)
      (by norm_num [dwellsNonneg]) exMovement_ok⟩

/-- C5 counterexample: with velocity −60 ≤ 0 the engine does not fail at
all — it returns a complete trajectory (with decreasing times).  The source
defines no `InvalidVelocityError` and performs no velocity validation. -/
theorem C5_counterexample :
    (-60 : KMPH) ≤ 0 ∧
    get_train_movement (Timetable.mk [Stop.mk "B" 0] "A" 0) (-60)
        [("A", 0), ("B", 5)] =
      Except.ok [Position.mk 0 0, Position.mk (-5) 5, Position.mk (-5) 5] := by
  constructor
  · norm_num
  · simp [get_train_movement, movement_loop, lookupStation]
    norm_num

/-- C5 amended: the engine performs no velocity validation and defines no
`InvalidVelocityError`.  A velocity of 0 with a non-empty route whose
departure station and first stop resolve fails with `ZeroDivisionError`
raised by the travel-time division, without producing a partial trajectory;
a negative velocity is silently accepted. -/
theorem C5_zero_velocity (tt : Timetable) (net : Network) (s : Stop)
    (hhead : tt.stops.head? = some s)
    (hdep : ∃ c, lookupStation net tt.departure_station = some c)
    (hs : ∃ c, lookupStation net s.name = some c) :
    get_train_movement tt 0 net = Except.error TrainError.zeroDivisionError := by
  obtain ⟨c0, hc0⟩ := hdep
  obtain ⟨c1, hc1⟩ := hs
  cases hstops : tt.stops with
  | nil =>
    rw [hstops] at hhead
    exact absurd hhead (by simp)
  | cons s0 rest =>
    rw [hstops] at hhead
    simp only [List.head?_cons, Option.some.injEq] at hhead
    subst hhead
    simp [get_train_movement, hc0, hstops, movement_loop, hc1]

/-- C5 witness: velocity 0 on a resolvable one-stop route fails with the
division error. -/
theorem C5_zero_velocity_witness :
    lookupStation [("A", (0:ℚ)), ("B", 5)] "A" = some 0 ∧
    lookupStation [("A", (0:ℚ)), ("B", 5)] "B" = some 5 ∧
    get_train_movement (Timetable.mk [Stop.mk "B" 2] "A" 0) 0 [("A", 0), ("B", 5)] =
      Except.error TrainError.zeroDivisionError :=
  ⟨rfl, rfl,
    C5_zero_velocity (Timetable.mk [Stop.mk "B" 2] "A" 0) [("A", 0), ("B", 5)]
      (Stop.mk "B" 2) rfl ⟨0, rfl⟩ ⟨5, rfl⟩⟩

/-- C6: If the departure station or some stop on the route is absent from
the network, `get_train_movement` fails — it returns an error and no
trajectory, substituting no fallback coordinate — and whenever the velocity
is non-zero (so the division error cannot pre-empt the lookup) the error is
the `KeyError` the dict access raises, the source's realization of the
spec's `UnknownStationError`. -/
theorem C6_unknown_station (tt : Timetable) (v : KMPH) (net : Network)
    (habs : lookupStation net tt.departure_station = none ∨
      ∃ s ∈ tt.stops, lookupStation net s.name = none) :
    (∃ e, get_train_movement tt v net = Except.error e) ∧
    (v ≠ 0 → ∃ st, get_train_movement tt v net =
      Except.error (TrainError.keyError st)) := by
  constructor
  · rcases habs with hdep | hstop
    · exact ⟨TrainError.keyError tt.departure_station,
        by simp [get_train_movement, hdep]⟩
    · cases hc : lookupStation net tt.departure_station with
      | none =>
        exact ⟨TrainError.keyError tt.departure_station,
          by simp [get_train_movement, hc]⟩
      | some c =>
        obtain ⟨e, herr⟩ :=
          @movement_loop_absent_any v net tt.stops tt.departure_time c hstop
        exact ⟨e, by simp [get_train_movement, hc, herr]⟩
  · intro hv
    rcases habs with hdep | hstop
    · exact ⟨tt.departure_station, by simp [get_train_movement, hdep]⟩
    · cases hc : lookupStation net tt.departure_station with
      | none => exact ⟨tt.departure_station, by simp [get_train_movement, hc]⟩
      | some c =>
        obtain ⟨st, herr⟩ := movement_loop_absent hv tt.departure_time c hstop
        exact ⟨st, by simp [get_train_movement, hc, herr]⟩

/-- C6 witness: an unknown departure station aborts the computation. -/
theorem C6_unknown_station_witness :
    lookupStation [("A", (0:ℚ))] "X" = none ∧
    ((∃ e, get_train_movement (Timetable.mk [] "X" 0) 60 [("A", 0)] =
        Except.error e) ∧
      ((60:KMPH) ≠ 0 → ∃ st, get_train_movement (Timetable.mk [] "X" 0) 60 [("A", 0)] =
        Except.error (TrainError.keyError st))) :=
  ⟨rfl, C6_unknown_station (Timetable.mk [] "X" 0) 60 [("A", 0)] (Or.inl rfl)⟩

/-- C10: Every sample of a returned trajectory sits at a station coordinate
of the network — that of the departure station or of some stop on the
route; no interpolated intermediate positions are emitted. -/
theorem C10_locations_are_stations (tt : Timetable) (v : KMPH) (net : Network)
    (m : TrainMovement) (hok : get_train_movement tt v net = Except.ok m) :
    locationsFromNetwork tt net m := by
  obtain ⟨c0, l, hc0, hl, rfl⟩ := get_train_movement_ok hok
  intro p hp
  rcases List.mem_cons.mp hp with rfl | hp'
  · exact Or.inl hc0
  · exact Or.inr (movement_loop_locations hl p hp')

/-- C10 witness: the theorem instantiated on the spec's concrete
scenario. -/
theorem C10_locations_witness :
    get_train_movement exTimetable 60 exNetwork = Except.ok exMovement ∧
    locationsFromNetwork exTimetable exNetwork exMovement :=
  ⟨exMovement_ok,
    C10_locations_are_stations exTimetable 60 exNetwork exMovement exMovement_ok⟩

end TrainGen
